import Mathlib

/-!
Verification of the `filet` terminal directory browser (`src/filet.c`)
against its natural-language specification.

The C program is shallowly embedded: C strings become NUL-free byte lists
(`List Nat`), `struct stat` results become `st_mode` values (`Nat`, with the
POSIX mode-bit tests spelled out), fallible system calls become `Option`
inputs, and the `main` event loop becomes a step function on an explicit
state record. Every definition is translated from the source; definitions
whose name mentions a claim follow the claim's wording instead and are
compared against the source-derived ones.
-/

namespace Filet

/-! ### Byte strings

C strings are NUL-terminated byte arrays; a string's NUL-free content is
modelled as a `List Nat` of byte values. -/

/-- The byte value of the ASCII dot character, the hidden-file marker and
the first byte of the two ancestor pseudo-entries. -/
def dotByte : Nat := 46

/-- The byte value of the ASCII path separator. -/
def slashByte : Nat := 47

/-- C `strcmp` on the byte level, as `direlemcmp` uses it (src/filet.c line
71): walk both strings; at the first differing byte the smaller byte decides,
and a string that ends first compares below (its terminating NUL, byte 0, is
below every content byte). Only the sign of the result is ever used, so the
embedding returns exactly -1, 0 or 1. -/
def strcmp : List Nat → List Nat → Int
  | [], [] => 0
  | [], _ :: _ => -1
  | _ :: _, [] => 1
  | a :: as, b :: bs => if a < b then -1 else if b < a then 1 else strcmp as bs

/-- Byte-wise lexicographic order on names, written from the specification's
words ("byte-wise lexicographic comparison of `name` (case-sensitive, no
locale collation)"): at the first position where the names differ the smaller
byte comes first, and a name that is a strict prefix of another comes first.
Related to the code's `strcmp` by `strcmp_nonpos_iff_bytesLe`. -/
def bytesLe : List Nat → List Nat → Prop
  | [], _ => True
  | _ :: _, [] => False
  | a :: as, b :: bs => a < b ∨ (a = b ∧ bytesLe as bs)

def bytesLeDecidable : (a b : List Nat) → Decidable (bytesLe a b)
  | [], b => .isTrue (by simp [bytesLe])
  | _ :: _, [] => .isFalse (by simp [bytesLe])
  | a :: as, b :: bs =>
    have : Decidable (bytesLe as bs) := bytesLeDecidable as bs
    decidable_of_iff (a < b ∨ (a = b ∧ bytesLe as bs)) (by simp [bytesLe])

instance : ∀ a b, Decidable (bytesLe a b) := bytesLeDecidable

/-! ### Directory entries (`struct direlement`, src/filet.c lines 26-36) -/

/-- The five entry kinds of the anonymous `enum` inside `struct direlement`
(src/filet.c lines 27-33); the spec's `kind`. -/
inductive EntryType
  | TYPE_DIR
  | TYPE_SYML
  | TYPE_SYML_TO_DIR
  | TYPE_EXEC
  | TYPE_NORM
deriving DecidableEq, Repr, Inhabited

/-- `struct direlement` (src/filet.c lines 26-36): one classified directory
entry, the element of the spec's Listing. -/
structure Direlement where
  type : EntryType
  d_name : List Nat
deriving DecidableEq, Repr, Inhabited

/-- The comparator's directory test, `a->type == TYPE_DIR || a->type ==
TYPE_SYML_TO_DIR` (src/filet.c lines 64-65). -/
def isdirType (t : EntryType) : Bool :=
  t == .TYPE_DIR || t == .TYPE_SYML_TO_DIR

/-- `direlemcmp` (src/filet.c lines 58-72), the `qsort` comparator:
directories and symlinks to directories sort before everything else, and
inside each of the two groups `strcmp` on the names decides. -/
def direlemcmp (a b : Direlement) : Int :=
  let a_is_dir := isdirType a.type
  let b_is_dir := isdirType b.type
  if a_is_dir != b_is_dir then
    if a_is_dir then -1 else 1
  else
    strcmp a.d_name b.d_name

/-- The boolean order `qsort` establishes: entry `a` may stay before `b`
exactly when `direlemcmp a b <= 0`. -/
def direlemLe (a b : Direlement) : Bool :=
  decide (direlemcmp a b ≤ 0)

/-! ### File metadata (`st_mode` and the POSIX mode-bit tests) -/

/-- `S_IFMT`, the file-type mask of `st_mode`. -/
def S_IFMT : Nat := 0o170000

/-- `S_IFDIR`, the directory file type. -/
def S_IFDIR : Nat := 0o040000

/-- `S_IFLNK`, the symbolic-link file type. -/
def S_IFLNK : Nat := 0o120000

/-- `S_IFREG`, the regular-file type. -/
def S_IFREG : Nat := 0o100000

/-- `S_IXUSR`, the owner execute permission bit (src/filet.c line 218). -/
def S_IXUSR : Nat := 0o100

/-- POSIX `S_ISDIR` (src/filet.c lines 208 and 212). -/
def S_ISDIR (m : Nat) : Bool := m &&& S_IFMT == S_IFDIR

/-- POSIX `S_ISLNK` (src/filet.c line 210). -/
def S_ISLNK (m : Nat) : Bool := m &&& S_IFMT == S_IFLNK

/-- POSIX `S_ISREG`; the code never calls it, but claim C4's wording does. -/
def S_ISREG (m : Nat) : Bool := m &&& S_IFMT == S_IFREG

/-! ### `read_dir` (src/filet.c lines 160-231) -/

/-- One directory member as the OS reports it to `read_dir`: the `readdir`
name together with the outcomes of the two `fstatat` calls the loop can make
on it — `lstatMode` for the `AT_SYMLINK_NOFOLLOW` call (line 191) and
`statMode` for the link-following call (line 211), `none` modelling a failing
call and `some m` a successful one filling `sb.st_mode` with `m`. -/
structure RawEntry where
  d_name : List Nat
  lstatMode : Option Nat
  statMode : Option Nat
deriving DecidableEq, Repr

/-- The test `name[0] == '.' && (name[1] == '\0' || (name[1] == '.' &&
name[2] == '\0'))` (src/filet.c lines 182-183): the name is one of the two
ancestor pseudo-entries. -/
def isDotOrDotDot : List Nat → Bool
  | [n0] => n0 == dotByte
  | [n0, n1] => n0 == dotByte && n1 == dotByte
  | _ => false

/-- The test `name[0] == '.'` (src/filet.c line 187): a hidden name. -/
def startsWithDot : List Nat → Bool
  | [] => false
  | n0 :: _ => n0 == dotByte

/-- The classification of one surviving entry from its stat results
(src/filet.c lines 208-223), in the code's order: `S_ISDIR` on the no-follow
mode first; then symlinks, which become `TYPE_SYML_TO_DIR` exactly when the
link-following re-stat succeeds and yields a directory; then the
owner-execute test `sb.st_mode & S_IXUSR` on everything else. -/
def classify (lstatMode : Nat) (statMode : Option Nat) : EntryType :=
  if S_ISDIR lstatMode then .TYPE_DIR
  else if S_ISLNK lstatMode then
    match statMode with
    | some m => if S_ISDIR m then .TYPE_SYML_TO_DIR else .TYPE_SYML
    | none => .TYPE_SYML
  else if lstatMode &&& S_IXUSR != 0 then .TYPE_EXEC
  else .TYPE_NORM

/-- The body of the `readdir` loop (src/filet.c lines 177-226) for one
member: skip the two ancestor pseudo-entries, skip hidden names unless
`show_hidden`, skip members whose no-follow stat fails, and classify the
rest. `none` means the member is not added to `ents`. -/
def scanEntry (show_hidden : Bool) (e : RawEntry) : Option Direlement :=
  if isDotOrDotDot e.d_name then none
  else if !show_hidden && startsWithDot e.d_name then none
  else
    match e.lstatMode with
    | none => none
    | some m => some { type := classify m e.statMode, d_name := e.d_name }

/-- `read_dir` (src/filet.c lines 160-231). Its input is the outcome of
`opendir(path)`: `none` when the directory cannot be opened — then no loop
runs and the listing is empty — otherwise the `readdir` stream as a list of
raw members. The surviving entries are sorted with `direlemcmp` (the `qsort`
call, line 227); `qsort` promises exactly an order consistent with the
comparator, which `mergeSort` realises. The function is total by
construction: every input yields a listing. -/
def read_dir (dirStream : Option (List RawEntry)) (show_hidden : Bool) :
    List Direlement :=
  match dirStream with
  | none => []
  | some es => (es.filterMap (scanEntry show_hidden)).mergeSort direlemLe

/-! ### Terminal geometry and the SIGWINCH handler (src/filet.c lines 38-40,
77-101) -/

/-- `get_term_size` (src/filet.c lines 77-90): issue the `TIOCGWINSZ` ioctl
and write the reported size to the globals `g_row`/`g_col`; on ioctl failure
print an error and leave them alone, returning false. `query` is the ioctl
outcome, `some (rows, cols)` on success; `g` is the current `(g_row, g_col)`
pair. -/
def get_term_size (query : Option (Nat × Nat)) (g : Nat × Nat) :
    Bool × (Nat × Nat) :=
  match query with
  | none => (false, g)
  | some ws => (true, ws)

/-- `handle_winch` (src/filet.c lines 95-101), the SIGWINCH handler, as a map
on the stored geometry: apart from re-installing itself it calls
`get_term_size()` directly, so the geometry re-query (and, on ioctl failure,
`perror` output) happens inside the signal-notification context. The program
has no pending-resize flag at all. -/
def handle_winch (query : Option (Nat × Nat)) (g : Nat × Nat) : Nat × Nat :=
  (get_term_size query g).2

/-! ### `spawn` (src/filet.c lines 236-263) -/

/-- The two pieces of terminal state the spawn path toggles: raw input mode
(`setup_terminal`/`restore_terminal` tcsetattr calls) and the alternate
screen buffer (the escape sequences they print). Inside the TUI both are
set. -/
structure TermScreenState where
  rawMode : Bool
  altScreen : Bool
deriving DecidableEq, Repr

/-- `restore_terminal` (src/filet.c lines 106-119) on the terminal state:
back to the saved cooked attributes and the main screen. -/
def restore_terminal (_t : TermScreenState) : TermScreenState :=
  { rawMode := false, altScreen := false }

/-- `setup_terminal` (src/filet.c lines 125-153) on the terminal state: raw
input and the alternate screen. -/
def setup_terminal (_t : TermScreenState) : TermScreenState :=
  { rawMode := true, altScreen := true }

/-- The externally visible effects of one `spawn` call, in order. -/
inductive SpawnEffect
  | SuspendTui
  | RunChildAndWait
  | ResumeTui
deriving DecidableEq, Repr

/-- `spawn` (src/filet.c lines 236-263): `fork()` comes first, and when it
fails (`pid < 0`) the function returns at once — before `restore_terminal`
and the `fflush` are reached — so nothing at all happens; otherwise it
suspends the TUI (`restore_terminal` + flush), the child `chdir`s and
`execlp`s while the parent waits for it to exit or be signalled, and then
`setup_terminal` re-enters the TUI. `forkOk` is whether `fork` succeeded;
the result is the terminal state left behind and the trace of effects. The
function reads and writes no navigation state in either case. -/
def spawn (forkOk : Bool) (t : TermScreenState) :
    TermScreenState × List SpawnEffect :=
  if !forkOk then (t, [])
  else (setup_terminal (restore_terminal t),
    [.SuspendTui, .RunChildAndWait, .ResumeTui])

/-! ### The event loop of `main` (src/filet.c lines 298-505) -/

/-- The key bindings of the two `switch` statements (src/filet.c lines
411-438 and 444-503); `kShiftG` is `G` and `kOther` any unbound byte
`getchar` returns. -/
inductive Key
  | kH
  | kTilde
  | kSlash
  | kDot
  | kR
  | kS
  | kQ
  | kJ
  | kK
  | kL
  | kG
  | kShiftG
  | kE
  | kX
  | kOther
deriving DecidableEq, Repr

/-- The startup constants and external path helpers `main` uses on the path:
`home` from `getenv("HOME")` with fallback `/` (line 323), and libc
`dirname` (line 413), which is no code of this repository and stays
abstract. -/
structure Config where
  home : List Nat
  dirnameFn : List Nat → List Nat

/-- A snapshot of what the filesystem answers during one loop iteration:
for each path, `none` when `opendir` fails, otherwise the `readdir` stream
with each member's stat outcomes. -/
structure Filesystem where
  opendirAt : List Nat → Option (List RawEntry)

/-- The mutable loop state of `main` (src/filet.c lines 306, 372-376):
the current path buffer, `show_hidden`, the `fetch_dir` staleness flag, the
selection index `sel` and the current listing (`ents` together with its
count `n`, here one list whose length is `n`). -/
structure LoopState where
  path : List Nat
  show_hidden : Bool
  fetch_dir : Bool
  sel : Nat
  ents : List Direlement
deriving DecidableEq, Repr

/-- The path append of the `l` case (src/filet.c lines 466-470):
`strcat(path, "/")` unless `path[1] == '\0'` — for a proper C string that
second byte is the terminator exactly when the path is shorter than two
bytes, which for an absolute path means the root `/` — then
`strcat(path, ents[sel].d_name)`. -/
def appendSegment (path name : List Nat) : List Nat :=
  if 2 ≤ path.length then path ++ slashByte :: name else path ++ name

/-- The top of each loop iteration (src/filet.c lines 379-405): when
`fetch_dir` is set, clear it, reset the selection to 0, and re-read the
directory into `ents`. The redraw that follows writes only to the screen. -/
def doFetch (fs : Filesystem) (st : LoopState) : LoopState :=
  if st.fetch_dir then
    { st with
      fetch_dir := false
      sel := 0
      ents := read_dir (fs.opendirAt st.path) st.show_hidden }
  else st

/-- The first `switch` (src/filet.c lines 411-438), run for every key:
path, visibility, refresh, shell and quit commands. `q` calls
`exit(EXIT_SUCCESS)`, which as a state map is the identity; `s` runs `spawn`
(whose terminal effects `spawn` models and whose filesystem effects show up
as the next iteration's `Filesystem`) and marks the listing stale. -/
def firstSwitch (cfg : Config) (k : Key) (st : LoopState) : LoopState :=
  match k with
  | .kH => { st with path := cfg.dirnameFn st.path, fetch_dir := true }
  | .kTilde => { st with path := cfg.home, fetch_dir := true }
  | .kSlash => { st with path := [slashByte], fetch_dir := true }
  | .kDot => { st with show_hidden := !st.show_hidden, fetch_dir := true }
  | .kR => { st with fetch_dir := true }
  | .kS => { st with fetch_dir := true }
  | _ => st

/-- The second `switch` (src/filet.c lines 444-503), reached only when the
listing is non-empty: selection movement, descend, edit and delete. The
`draw_line` and cursor output touch no state; `e`'s `spawn` and `x`'s
`unlinkat` act on the world outside the loop state and mark the listing
stale. `ents[sel]` is total array indexing in C; the embedding uses `getD`
(the loop's invariant keeps `sel` in bounds whenever this runs). -/
def secondSwitch (k : Key) (st : LoopState) : LoopState :=
  match k with
  | .kJ =>
    if st.sel < st.ents.length - 1 then { st with sel := st.sel + 1 } else st
  | .kK =>
    if st.sel > 0 then { st with sel := st.sel - 1 } else st
  | .kL =>
    if (st.ents.getD st.sel default).type = .TYPE_DIR ∨
        (st.ents.getD st.sel default).type = .TYPE_SYML_TO_DIR then
      { st with
        path := appendSegment st.path (st.ents.getD st.sel default).d_name
        fetch_dir := true }
    else st
  | .kG => { st with sel := 0 }
  | .kShiftG => { st with sel := st.ents.length - 1 }
  | .kE => { st with fetch_dir := true }
  | .kX => { st with fetch_dir := true }
  | _ => st

/-- Handling of one key (src/filet.c lines 409-503): the first `switch`,
then `if (n == 0) continue;` — the second `switch` only runs when the
listing is non-empty. -/
def processKey (cfg : Config) (k : Key) (st : LoopState) : LoopState :=
  let st1 := firstSwitch cfg k st
  if st1.ents.length = 0 then st1 else secondSwitch k st1

/-- One full iteration of the event loop: resolve a pending re-read, then
read and handle one key. `fs` is the filesystem as this iteration's system
calls observe it; a run whose filesystem changes between keys is a list of
`(fs, key)` iterations. -/
def stepLoop (cfg : Config) (fs : Filesystem) (k : Key) (st : LoopState) :
    LoopState :=
  processKey cfg k (doFetch fs st)

/-- The event loop over a whole input sequence. -/
def runLoop (cfg : Config) (steps : List (Filesystem × Key))
    (st : LoopState) : LoopState :=
  steps.foldl (fun s p => stepLoop cfg p.1 p.2 s) st

/-- The loop state on entry to the `for (;;)` loop (src/filet.c lines
372-378): `show_hidden = false`, `fetch_dir = true`, `sel = 0`; `n` is still
unset there, but the pending fetch fills the listing before anything reads
it, so the embedding starts it empty. -/
def initState (path0 : List Nat) : LoopState :=
  { path := path0
    show_hidden := false
    fetch_dir := true
    sel := 0
    ents := [] }

/-- The spec's NavigationState invariant: the selection is an index into the
listing whenever the listing is non-empty, and 0 when it is empty. -/
def selInvariant (st : LoopState) : Prop :=
  (st.ents = [] → st.sel = 0) ∧ (st.ents ≠ [] → st.sel < st.ents.length)

/-! ### Claim-worded classifiers, for comparison with `classify`

These two definitions follow the words of claim C4 (and of §4.2 of the
spec), not the code; they exist to be compared with the source-derived
`classify`. -/

/-- The classification exactly as claim C4 words it: a directory gets
`TYPE_DIR`; a symlink is re-statted following the link and gets
`TYPE_SYML_TO_DIR` when that succeeds and resolves to a directory, else
`TYPE_SYML`; "a regular file with any owner execute permission bit set gets
Executable; anything else gets Regular" — so `TYPE_EXEC` demands a regular
file here, a test the code never makes. -/
def classifyClaimC4 (lstatMode : Nat) (statMode : Option Nat) : EntryType :=
  if S_ISDIR lstatMode then .TYPE_DIR
  else if S_ISLNK lstatMode then
    match statMode with
    | some m => if S_ISDIR m then .TYPE_SYML_TO_DIR else .TYPE_SYML
    | none => .TYPE_SYML
  else if S_ISREG lstatMode && lstatMode &&& S_IXUSR != 0 then .TYPE_EXEC
  else .TYPE_NORM

/-- The classification as claim C4 stands once corrected: the same wording
with the regular-file restriction dropped — anything that is neither a
directory nor a symlink gets `TYPE_EXEC` when its mode carries the owner
execute bit and `TYPE_NORM` otherwise. Written from the amended claim's
words. -/
def classifyAmendedC4 (lstatMode : Nat) (statMode : Option Nat) : EntryType :=
  if S_ISDIR lstatMode then .TYPE_DIR
  else if S_ISLNK lstatMode then
    match statMode with
    | some m => if S_ISDIR m then .TYPE_SYML_TO_DIR else .TYPE_SYML
    | none => .TYPE_SYML
  else if lstatMode &&& S_IXUSR != 0 then .TYPE_EXEC
  else .TYPE_NORM

/-! ### Sample values, used by the witness theorems -/

/-- A regular file named `b`, mode 0644, both stat calls as `read_dir` would
see them. -/
def sampleRawPlain : RawEntry :=
  { d_name := [98]
    lstatMode := some 0o100644
    statMode := none }

/-- A hidden regular file named `.h`, mode 0644. -/
def sampleRawHidden : RawEntry :=
  { d_name := [dotByte, 104]
    lstatMode := some 0o100644
    statMode := none }

/-- A FIFO named `p` with mode 0700: no regular file, owner-executable. -/
def sampleRawFifo : RawEntry :=
  { d_name := [112]
    lstatMode := some 0o10700
    statMode := none }

/-- A sample `readdir` stream. -/
def sampleStream : List RawEntry := [sampleRawPlain, sampleRawHidden]

/-- A sample filesystem answering every path with `sampleStream`. -/
def sampleFs : Filesystem := { opendirAt := fun _ => some sampleStream }

/-- A sample configuration: home is the root, `dirname` the identity. -/
def sampleCfg : Config :=
  { home := [slashByte]
    dirnameFn := fun p => p }

/-- A quiescent loop state at the root whose listing agrees with what
`sampleFs` answers there. -/
def sampleQuiet : LoopState :=
  { path := [slashByte]
    show_hidden := false
    fetch_dir := false
    sel := 0
    ents := read_dir (some sampleStream) false }

/-- A loop state at the root whose selected entry is a directory named
`d`, next to a regular file named `f`. -/
def sampleEnterRoot : LoopState :=
  { path := [slashByte]
    show_hidden := false
    fetch_dir := false
    sel := 0
    ents := [⟨.TYPE_DIR, [100]⟩, ⟨.TYPE_NORM, [102]⟩] }

/-- A loop state at the two-byte path `/u` whose selected entry is a
directory named `d`. -/
def sampleEnterDeep : LoopState :=
  { path := [slashByte, 117]
    show_hidden := false
    fetch_dir := false
    sel := 0
    ents := [⟨.TYPE_DIR, [100]⟩] }

/-! ## Theorems

First the library of helper lemmas, then one theorem per claim (with its
witness or counterexample where one is called for). -/

theorem strcmp_antisymm (a b : List Nat) : strcmp a b = - strcmp b a := by
  induction a generalizing b with
  | nil => cases b <;> simp [strcmp]
  | cons x xs ih =>
    cases b with
    | nil => simp [strcmp]
    | cons y ys =>
      simp only [strcmp]
      rcases Nat.lt_trichotomy x y with h | h | h
      · simp [h, Nat.lt_asymm h]
      · subst h
        simp [Nat.lt_irrefl, ih ys]
      · simp [h, Nat.lt_asymm h]

theorem strcmp_le_total (a b : List Nat) :
    strcmp a b ≤ 0 ∨ strcmp b a ≤ 0 := by
  rw [strcmp_antisymm a b]
  omega

theorem strcmp_trans {a b c : List Nat} (hab : strcmp a b ≤ 0)
    (hbc : strcmp b c ≤ 0) : strcmp a c ≤ 0 := by
  induction a generalizing b c with
  | nil => cases c <;> simp [strcmp]
  | cons x xs ih =>
    cases b with
    | nil => simp [strcmp] at hab
    | cons y ys =>
      cases c with
      | nil => simp [strcmp] at hbc
      | cons z zs =>
        simp only [strcmp] at hab hbc ⊢
        rcases Nat.lt_trichotomy x y with hxy | hxy | hxy
        · rcases Nat.lt_trichotomy y z with hyz | hyz | hyz
          · simp [hxy.trans hyz]
          · subst hyz
            simp [hxy]
          · simp [Nat.lt_asymm hyz, hyz] at hbc
        · subst hxy
          rcases Nat.lt_trichotomy x z with hxz | hxz | hxz
          · simp [hxz]
          · subst hxz
            simp only [Nat.lt_irrefl, if_false] at hab hbc ⊢
            exact ih hab hbc
          · simp [Nat.lt_asymm hxz, hxz] at hbc
        · simp [Nat.lt_asymm hxy, hxy] at hab

theorem strcmp_nonpos_iff_bytesLe (a b : List Nat) :
    strcmp a b ≤ 0 ↔ bytesLe a b := by
  induction a generalizing b with
  | nil => cases b <;> simp [strcmp, bytesLe]
  | cons x xs ih =>
    cases b with
    | nil => simp [strcmp, bytesLe]
    | cons y ys =>
      simp only [strcmp, bytesLe]
      rcases Nat.lt_trichotomy x y with h | h | h
      · simp [h]
      · subst h
        simp [Nat.lt_irrefl, ih ys]
      · simp [h, Nat.lt_asymm h, Nat.ne_of_gt h]

theorem direlemcmp_nonpos_iff (a b : Direlement) :
    direlemcmp a b ≤ 0 ↔
      ((isdirType a.type = true ∧ isdirType b.type = false) ∨
        (isdirType a.type = isdirType b.type ∧
          strcmp a.d_name b.d_name ≤ 0)) := by
  unfold direlemcmp
  cases ha : isdirType a.type <;> cases hb : isdirType b.type <;> simp

theorem direlemLe_total (a b : Direlement) :
    direlemLe a b || direlemLe b a := by
  simp only [direlemLe, Bool.or_eq_true, decide_eq_true_eq]
  rw [direlemcmp_nonpos_iff, direlemcmp_nonpos_iff]
  cases ha : isdirType a.type <;> cases hb : isdirType b.type <;>
    simp [strcmp_le_total a.d_name b.d_name]

theorem direlemLe_trans (a b c : Direlement) (hab : direlemLe a b)
    (hbc : direlemLe b c) : direlemLe a c := by
  simp only [direlemLe, decide_eq_true_eq] at hab hbc ⊢
  rw [direlemcmp_nonpos_iff] at hab hbc ⊢
  cases ha : isdirType a.type <;> cases hb : isdirType b.type <;>
      cases hc : isdirType c.type <;> simp [ha, hb, hc] at hab hbc ⊢
  · exact strcmp_trans hab hbc
  · exact strcmp_trans hab hbc

theorem scanEntry_eq_some (sh : Bool) (e : RawEntry) (d : Direlement) :
    scanEntry sh e = some d ↔
      isDotOrDotDot e.d_name = false ∧
      (!sh && startsWithDot e.d_name) = false ∧
      ∃ m, e.lstatMode = some m ∧
        d = { type := classify m e.statMode, d_name := e.d_name } := by
  cases hdot : isDotOrDotDot e.d_name <;>
    cases hh : (!sh && startsWithDot e.d_name) <;>
      cases hm : e.lstatMode <;>
        simp [scanEntry, hdot, hh, hm, eq_comm]

theorem mem_read_dir_iff (es : List RawEntry) (sh : Bool) (d : Direlement) :
    d ∈ read_dir (some es) sh ↔ ∃ e ∈ es, scanEntry sh e = some d := by
  simp only [read_dir, List.mem_mergeSort, List.mem_filterMap]

/-- C1: in every Listing `read_dir` produces, every entry whose kind is
`TYPE_DIR` or `TYPE_SYML_TO_DIR` precedes every entry of any other kind, and
within each of the two groups the names ascend in byte-wise lexicographic
order (case-sensitive, no collation — `bytesLe`). -/
theorem read_dir_ordering (dirStream : Option (List RawEntry))
    (show_hidden : Bool) :
    (read_dir dirStream show_hidden).Pairwise (fun a b =>
      (isdirType b.type = true → isdirType a.type = true) ∧
      (isdirType a.type = isdirType b.type → bytesLe a.d_name b.d_name)) := by
  cases dirStream with
  | none => simp [read_dir]
  | some es =>
    have hs := @List.sorted_mergeSort _ direlemLe
      (fun a b c => direlemLe_trans a b c) (fun a b => direlemLe_total a b)
      (es.filterMap (scanEntry show_hidden))
    refine hs.imp ?_
    intro a b hab
    rw [direlemLe, decide_eq_true_eq, direlemcmp_nonpos_iff] at hab
    rcases hab with ⟨ha, hb⟩ | ⟨heq, hcmp⟩
    · refine ⟨fun h => ha, fun h => ?_⟩
      rw [ha, hb] at h
      exact absurd h (by simp)
    · exact ⟨fun h => heq.trans h, fun _ =>
        (strcmp_nonpos_iff_bytesLe a.d_name b.d_name).mp hcmp⟩

theorem selInvariant_doFetch (fs : Filesystem) (st : LoopState)
    (h : selInvariant st) : selInvariant (doFetch fs st) := by
  unfold doFetch
  split
  · exact ⟨fun _ => rfl, fun hne => List.length_pos.mpr hne⟩
  · exact h

theorem selInvariant_secondSwitch (k : Key) (st : LoopState)
    (h : selInvariant st) (hne : st.ents ≠ []) :
    selInvariant (secondSwitch k st) := by
  have hlen : 0 < st.ents.length := List.length_pos.mpr hne
  have hsel : st.sel < st.ents.length := h.2 hne
  cases k with
  | kJ =>
    by_cases hif : st.sel < st.ents.length - 1
    · simp only [secondSwitch, if_pos hif]
      exact ⟨fun he => absurd he hne,
        fun _ => show st.sel + 1 < st.ents.length by omega⟩
    · simp only [secondSwitch, if_neg hif]
      exact h
  | kK =>
    by_cases hif : st.sel > 0
    · simp only [secondSwitch, if_pos hif]
      exact ⟨fun he => absurd he hne,
        fun _ => show st.sel - 1 < st.ents.length by omega⟩
    · simp only [secondSwitch, if_neg hif]
      exact h
  | kL =>
    simp only [secondSwitch]
    split
    · exact h
    · exact h
  | kG => exact ⟨fun _ => rfl, fun _ => hlen⟩
  | kShiftG =>
    exact ⟨fun he => absurd he hne,
      fun _ => show st.ents.length - 1 < st.ents.length by omega⟩
  | kE => exact h
  | kX => exact h
  | kH => exact h
  | kTilde => exact h
  | kSlash => exact h
  | kDot => exact h
  | kR => exact h
  | kS => exact h
  | kQ => exact h
  | kOther => exact h

theorem selInvariant_processKey (cfg : Config) (k : Key) (st : LoopState)
    (h : selInvariant st) : selInvariant (processKey cfg k st) := by
  have h1 : selInvariant (firstSwitch cfg k st) := by cases k <;> exact h
  show selInvariant (if (firstSwitch cfg k st).ents.length = 0 then
    firstSwitch cfg k st else secondSwitch k (firstSwitch cfg k st))
  split
  · exact h1
  · next hne0 =>
    exact selInvariant_secondSwitch k _ h1
      (fun he => hne0 (by rw [he]; rfl))

theorem selInvariant_stepLoop (cfg : Config) (fs : Filesystem) (k : Key)
    (st : LoopState) (h : selInvariant st) :
    selInvariant (stepLoop cfg fs k st) :=
  selInvariant_processKey cfg k _ (selInvariant_doFetch fs st h)

theorem selInvariant_runLoop (cfg : Config)
    (steps : List (Filesystem × Key)) (st : LoopState)
    (h : selInvariant st) : selInvariant (runLoop cfg steps st) := by
  induction steps generalizing st with
  | nil => exact h
  | cons p ps ih => exact ih _ (selInvariant_stepLoop cfg p.1 p.2 st h)

/-- C2: for every input sequence (each key together with the filesystem its
iteration observes, so filesystem changes between keys are covered), the
selection index of the state the event loop reaches from the initial state
is inside `[0, len-1]` whenever the listing is non-empty and 0 whenever it
is empty: no input sequence can drive it out of that range. -/
theorem runLoop_selection_invariant (cfg : Config)
    (steps : List (Filesystem × Key)) (path0 : List Nat) :
    selInvariant (runLoop cfg steps (initState path0)) :=
  selInvariant_runLoop cfg steps (initState path0)
    ⟨fun _ => rfl, fun hne => absurd rfl hne⟩

theorem sampleStream_listing :
    read_dir (some sampleStream) false =
      [{ type := .TYPE_NORM, d_name := [98] }] := by
  simp [read_dir, sampleStream, sampleRawPlain, sampleRawHidden, scanEntry,
    isDotOrDotDot, startsWithDot, classify, S_ISDIR, S_ISLNK, S_IFMT, S_IFDIR,
    S_IFLNK, S_IXUSR, dotByte, List.mergeSort]
  decide

theorem sampleFifo_listing :
    read_dir (some [sampleRawFifo]) true =
      [{ type := .TYPE_EXEC, d_name := [112] }] := by
  simp [read_dir, sampleRawFifo, scanEntry, isDotOrDotDot, startsWithDot,
    classify, S_ISDIR, S_ISLNK, S_IFMT, S_IFDIR, S_IFLNK, S_IXUSR, dotByte,
    List.mergeSort]
  decide

/-- C3: `read_dir` is total by construction (it is a Lean function into
`List Direlement`; the C function's only aborts are allocation failures,
which the embedding does not model and which the spec classes as fatal
elsewhere). When `opendir` fails the listing is empty, and every entry of a
produced listing originates in a member whose no-follow stat succeeded — a
member whose stat fails is silently omitted. -/
theorem read_dir_total_and_silent (es : List RawEntry) (sh : Bool)
    (d : Direlement) (hd : d ∈ read_dir (some es) sh) :
    read_dir none sh = [] ∧
    ∃ e ∈ es, e.lstatMode.isSome = true ∧ d.d_name = e.d_name := by
  refine ⟨rfl, ?_⟩
  rcases (mem_read_dir_iff es sh d).mp hd with ⟨e, he, hscan⟩
  rcases (scanEntry_eq_some sh e d).mp hscan with ⟨-, -, m, hm, hdval⟩
  exact ⟨e, he, by rw [hm]; rfl, by rw [hdval]⟩

/-- Witness for C3 at a concrete stream: the plain member `b` of
`sampleStream` appears, so the hypotheses of `read_dir_total_and_silent` are
satisfiable. -/
theorem read_dir_total_and_silent_witness :
    read_dir none false = [] ∧
    ∃ e ∈ sampleStream, e.lstatMode.isSome = true ∧
      ([98] : List Nat) = e.d_name :=
  read_dir_total_and_silent sampleStream false
    { type := .TYPE_NORM, d_name := [98] } (by rw [sampleStream_listing]; simp)

/-- Counterexample to C4 as stated: a FIFO with mode 0700 is no regular
file, so the claim's "anything else gets Regular" demands `TYPE_NORM` for
it, but the enumerated listing classifies it `TYPE_EXEC` (the code tests
only `sb.st_mode & S_IXUSR`, never `S_ISREG`). -/
theorem read_dir_exec_claim_false :
    read_dir (some [sampleRawFifo]) true =
      [{ type := .TYPE_EXEC, d_name := [112] }] ∧
    classifyClaimC4 0o10700 none = .TYPE_NORM ∧
    S_ISREG 0o10700 = false ∧
    S_ISDIR 0o10700 = false ∧
    S_ISLNK 0o10700 = false :=
  ⟨sampleFifo_listing, by decide, by decide, by decide, by decide⟩

/-- C4 as amended: every entry of a produced listing carries exactly the
kind the amended claim assigns from its stat results — directory, symlink
(to directory), and for everything else the owner-execute bit alone decides
between `TYPE_EXEC` and `TYPE_NORM`, with no regular-file restriction. -/
theorem read_dir_classification (es : List RawEntry) (sh : Bool)
    (d : Direlement) (hd : d ∈ read_dir (some es) sh) :
    ∃ e ∈ es, e.d_name = d.d_name ∧
      ∃ m, e.lstatMode = some m ∧ d.type = classifyAmendedC4 m e.statMode := by
  rcases (mem_read_dir_iff es sh d).mp hd with ⟨e, he, hscan⟩
  rcases (scanEntry_eq_some sh e d).mp hscan with ⟨-, -, m, hm, hdval⟩
  have hcfy : ∀ mo so, classify mo so = classifyAmendedC4 mo so :=
    fun mo so => rfl
  exact ⟨e, he, by rw [hdval], m, hm, by rw [hdval, hcfy]⟩

/-- Witness for C4's amended theorem at the FIFO stream: the hypotheses are
satisfiable and the amended classification is realised there. -/
theorem read_dir_classification_witness :
    ∃ e ∈ [sampleRawFifo],
      e.d_name = ({ type := .TYPE_EXEC, d_name := [112] } : Direlement).d_name ∧
      ∃ m, e.lstatMode = some m ∧
        ({ type := .TYPE_EXEC, d_name := [112] } : Direlement).type =
          classifyAmendedC4 m e.statMode :=
  read_dir_classification [sampleRawFifo] true
    { type := .TYPE_EXEC, d_name := [112] } (by rw [sampleFifo_listing]; simp)

/-- Counterexample to C5 as stated: a hidden member whose stat fails (here
`.a`, lstat failing) does not appear in the Listing even though
`show_hidden` is true, so "appears if and only if showHidden is true" is
false on the code. The last conjunct is the negation of the claim's
biconditional, universally stated. -/
theorem read_dir_hidden_claim_false :
    read_dir
        (some [{ d_name := [dotByte, 97], lstatMode := none, statMode := none }])
        true = [] ∧
    startsWithDot [dotByte, 97] = true ∧
    isDotOrDotDot [dotByte, 97] = false ∧
    ¬ (∀ (es : List RawEntry) (sh : Bool) (e : RawEntry), e ∈ es →
        isDotOrDotDot e.d_name = false → startsWithDot e.d_name = true →
        ((∃ d ∈ read_dir (some es) sh, d.d_name = e.d_name) ↔ sh = true)) := by
  have hz : read_dir
      (some [({ d_name := [dotByte, 97], lstatMode := none, statMode := none }
        : RawEntry)]) true = [] := by
    simp [read_dir, scanEntry, isDotOrDotDot, startsWithDot, dotByte,
      List.mergeSort]
  refine ⟨hz, by decide, by decide, fun hclaim => ?_⟩
  have h := (hclaim
    [{ d_name := [dotByte, 97], lstatMode := none, statMode := none }] true
    { d_name := [dotByte, 97], lstatMode := none, statMode := none }
    (by simp) (by decide) (by decide)).mpr rfl
  rw [hz] at h
  simp at h

/-- C5 as amended: for every directory (any `opendir` outcome) and every
flag, the two ancestor pseudo-entries never appear in the Listing — stated
unconditionally in the first conjunct — and, over a `readdir` stream with
pairwise distinct names as a real directory yields, any other member whose
name starts with a dot appears in the Listing if and only if `show_hidden`
is true AND its no-follow stat succeeds (a member whose stat fails is
omitted even when hidden entries are shown, which is the one correction). -/
theorem read_dir_hidden_amended :
    (∀ (dirStream : Option (List RawEntry)) (sh : Bool),
      ∀ d ∈ read_dir dirStream sh, isDotOrDotDot d.d_name = false) ∧
    (∀ (es : List RawEntry) (sh : Bool) (e : RawEntry),
      es.Pairwise (fun e1 e2 => e1.d_name ≠ e2.d_name) →
      e ∈ es → isDotOrDotDot e.d_name = false →
      startsWithDot e.d_name = true →
      ((∃ d ∈ read_dir (some es) sh, d.d_name = e.d_name) ↔
        (sh = true ∧ e.lstatMode.isSome = true))) := by
  constructor
  · intro dirStream sh d hd
    cases dirStream with
    | none => exact absurd hd (by simp [read_dir])
    | some es =>
      rcases (mem_read_dir_iff es sh d).mp hd with ⟨f, hf, hscan⟩
      rcases (scanEntry_eq_some sh f d).mp hscan with ⟨hfdot, -, m, -, hdval⟩
      rw [hdval]
      exact hfdot
  · intro es sh e hdistinct he hdot hhid
    constructor
    · rintro ⟨d, hd, hname⟩
      rcases (mem_read_dir_iff es sh d).mp hd with ⟨f, hf, hscan⟩
      rcases (scanEntry_eq_some sh f d).mp hscan with ⟨-, hfhid, m, hm, hdval⟩
      have hfe : f = e := by
        by_contra hne
        exact List.Pairwise.forall (fun x y hxy => (Ne.symm hxy : _))
          hdistinct hf he hne (by rw [hdval] at hname; exact hname)
      subst hfe
      rw [hhid, Bool.and_true] at hfhid
      refine ⟨by simpa using hfhid, ?_⟩
      rw [hm]
      rfl
    · rintro ⟨hsh, hsome⟩
      rcases Option.isSome_iff_exists.mp hsome with ⟨m, hm⟩
      refine ⟨{ type := classify m e.statMode, d_name := e.d_name },
        (mem_read_dir_iff es sh _).mpr ⟨e, he, ?_⟩, rfl⟩
      rw [scanEntry_eq_some]
      exact ⟨hdot, by rw [hsh]; rfl, m, hm, rfl⟩

/-- Witness for C5's amended theorem: the pseudo-entry exclusion
instantiated at `sampleStream`, and — names there being pairwise distinct —
its hidden member `.h` has a succeeding stat and so appears in the Listing
exactly because `show_hidden` is true. -/
theorem read_dir_hidden_amended_witness :
    (∀ d ∈ read_dir (some sampleStream) true,
      isDotOrDotDot d.d_name = false) ∧
    ((∃ d ∈ read_dir (some sampleStream) true,
        d.d_name = sampleRawHidden.d_name) ↔
      (true = true ∧ sampleRawHidden.lstatMode.isSome = true)) :=
  ⟨read_dir_hidden_amended.1 (some sampleStream) true,
    read_dir_hidden_amended.2 sampleStream true sampleRawHidden
      (by decide) (by decide) (by decide) (by decide)⟩

/-- C6, the code's actual behaviour at the failing input: a SIGWINCH
arriving while the ioctl reports 50 rows and 100 columns and the stored
geometry is (24, 80) makes the handler itself perform the re-query and
update the geometry — inside the notification context, not in the main
loop. The claim says the handler only flags a pending re-query; the program
has no such flag. -/
theorem handle_winch_requeries_in_handler :
    handle_winch (some (50, 100)) (24, 80) = (50, 100) ∧
    (50, 100) ≠ ((24, 80) : Nat × Nat) := by decide

theorem processKey_first_only (cfg : Config) (k : Key) (st : LoopState)
    (hsecond : secondSwitch k (firstSwitch cfg k st) = firstSwitch cfg k st) :
    processKey cfg k st = firstSwitch cfg k st := by
  show (if (firstSwitch cfg k st).ents.length = 0 then firstSwitch cfg k st
    else secondSwitch k (firstSwitch cfg k st)) = firstSwitch cfg k st
  split
  · rfl
  · exact hsecond

theorem processKey_kDot (cfg : Config) (st : LoopState) :
    processKey cfg .kDot st =
      { st with show_hidden := !st.show_hidden, fetch_dir := true } :=
  processKey_first_only cfg .kDot st rfl

/-- C7: with the filesystem unchanged in between (one `fs` serves all three
re-reads) and starting from a state whose listing agrees with that
filesystem, pressing `.` twice — each key handled by `stepLoop`, the second
key's pending re-read resolved by the closing `doFetch` exactly as the next
iteration of the loop would — restores the listing (same contents, same
order), the path and the visibility flag. -/
theorem toggle_hidden_roundtrip (cfg : Config) (fs : Filesystem)
    (st : LoopState)
    (hents : st.ents = read_dir (fs.opendirAt st.path) st.show_hidden) :
    (doFetch fs (stepLoop cfg fs .kDot (stepLoop cfg fs .kDot st))).ents
        = st.ents ∧
    (doFetch fs (stepLoop cfg fs .kDot (stepLoop cfg fs .kDot st))).path
        = st.path ∧
    (doFetch fs (stepLoop cfg fs .kDot (stepLoop cfg fs .kDot st))).show_hidden
        = st.show_hidden := by
  by_cases hf : st.fetch_dir <;>
    simp [stepLoop, processKey_kDot, doFetch, hf, hents]

/-- Witness for C7 at a concrete filesystem, configuration and quiescent
state. -/
theorem toggle_hidden_roundtrip_witness :
    (doFetch sampleFs (stepLoop sampleCfg sampleFs .kDot
        (stepLoop sampleCfg sampleFs .kDot sampleQuiet))).ents
        = sampleQuiet.ents ∧
    (doFetch sampleFs (stepLoop sampleCfg sampleFs .kDot
        (stepLoop sampleCfg sampleFs .kDot sampleQuiet))).path
        = sampleQuiet.path ∧
    (doFetch sampleFs (stepLoop sampleCfg sampleFs .kDot
        (stepLoop sampleCfg sampleFs .kDot sampleQuiet))).show_hidden
        = sampleQuiet.show_hidden :=
  toggle_hidden_roundtrip sampleCfg sampleFs sampleQuiet rfl

theorem processKey_kL_eq_secondSwitch (cfg : Config) (st : LoopState)
    (hne : st.ents ≠ []) :
    processKey cfg .kL st = secondSwitch .kL st := by
  have hlen : ¬ st.ents.length = 0 :=
    fun h => hne (List.length_eq_zero.mp h)
  show (if (firstSwitch cfg .kL st).ents.length = 0 then firstSwitch cfg .kL st
    else secondSwitch .kL (firstSwitch cfg .kL st)) = secondSwitch .kL st
  split
  · next h0 => exact absurd h0 hlen
  · rfl

theorem processKey_kL_enter (cfg : Config) (st : LoopState)
    (hne : st.ents ≠ [])
    (hkind : (st.ents.getD st.sel default).type = .TYPE_DIR ∨
      (st.ents.getD st.sel default).type = .TYPE_SYML_TO_DIR) :
    processKey cfg .kL st =
      { st with
        path := appendSegment st.path (st.ents.getD st.sel default).d_name
        fetch_dir := true } := by
  rw [processKey_kL_eq_secondSwitch cfg st hne]
  simp only [secondSwitch]
  split
  · rfl
  · next hcond => exact absurd hkind hcond

theorem processKey_kL_noop (cfg : Config) (st : LoopState)
    (hne : st.ents ≠ [])
    (h1 : (st.ents.getD st.sel default).type ≠ .TYPE_DIR)
    (h2 : (st.ents.getD st.sel default).type ≠ .TYPE_SYML_TO_DIR) :
    processKey cfg .kL st = st := by
  rw [processKey_kL_eq_secondSwitch cfg st hne]
  simp only [secondSwitch]
  split
  · next hcond =>
    cases hcond with
    | inl hh => exact absurd hh h1
    | inr hh => exact absurd hh h2
  · rfl

/-- C8: on a non-empty Listing the `l` key is a no-op — nothing in the state
changes — unless the selected entry's kind is `TYPE_DIR` or
`TYPE_SYML_TO_DIR`; when it is one of those, the entry's name is appended to
the current path as a new segment and the listing is marked stale
(`fetch_dir`), nothing else changing. -/
theorem enter_requires_dir_kind (cfg : Config) (st : LoopState)
    (hne : st.ents ≠ []) :
    ((st.ents.getD st.sel default).type ≠ .TYPE_DIR ∧
        (st.ents.getD st.sel default).type ≠ .TYPE_SYML_TO_DIR →
      processKey cfg .kL st = st) ∧
    ((st.ents.getD st.sel default).type = .TYPE_DIR ∨
        (st.ents.getD st.sel default).type = .TYPE_SYML_TO_DIR →
      processKey cfg .kL st =
        { st with
          path := appendSegment st.path (st.ents.getD st.sel default).d_name
          fetch_dir := true }) :=
  ⟨fun h => processKey_kL_noop cfg st hne h.1 h.2,
    fun h => processKey_kL_enter cfg st hne h⟩

/-- Witness for C8: entering the selected directory `d` of
`sampleEnterRoot` appends its name and marks the listing stale. -/
theorem enter_requires_dir_kind_witness :
    processKey sampleCfg .kL sampleEnterRoot =
      { sampleEnterRoot with
        path := appendSegment sampleEnterRoot.path [100]
        fetch_dir := true } :=
  (enter_requires_dir_kind sampleCfg sampleEnterRoot (by decide)).2
    (Or.inl rfl)

/-- C9: when `fork` itself fails, `spawn` returns with no effects at all:
the terminal state is exactly what it was (in particular the TUI is never
suspended — `restore_terminal` is never reached) and the effect trace is
empty; no state of any kind is changed. -/
theorem spawn_fork_failure_no_effects (t : TermScreenState) :
    spawn false t = (t, []) ∧ SpawnEffect.SuspendTui ∉ (spawn false t).2 := by
  refine ⟨rfl, ?_⟩
  simp [spawn]

/-- C10: entering a selected `TYPE_DIR`/`TYPE_SYML_TO_DIR` entry from the
one-byte root path `/` produces `/name` — no separator is inserted, so no
doubled slash arises — while from any path of length at least two a `/`
separator is inserted before the name. -/
theorem enter_root_no_double_slash (cfg : Config) (st : LoopState)
    (hne : st.ents ≠ [])
    (hkind : (st.ents.getD st.sel default).type = .TYPE_DIR ∨
      (st.ents.getD st.sel default).type = .TYPE_SYML_TO_DIR) :
    (st.path = [slashByte] →
      (processKey cfg .kL st).path =
        slashByte :: (st.ents.getD st.sel default).d_name) ∧
    (2 ≤ st.path.length →
      (processKey cfg .kL st).path =
        st.path ++ slashByte :: (st.ents.getD st.sel default).d_name) := by
  have hpath : (processKey cfg .kL st).path =
      appendSegment st.path (st.ents.getD st.sel default).d_name := by
    rw [processKey_kL_enter cfg st hne hkind]
  constructor
  · intro hroot
    rw [hpath, hroot, appendSegment]
    simp
  · intro hlen2
    rw [hpath, appendSegment, if_pos hlen2]

/-- Witness for C10 at the two-byte path `/u`: the separator is inserted
before the entered directory's name. -/
theorem enter_root_no_double_slash_witness :
    (processKey sampleCfg .kL sampleEnterDeep).path =
      sampleEnterDeep.path ++ slashByte :: [100] :=
  (enter_root_no_double_slash sampleCfg sampleEnterDeep (by decide)
    (Or.inl rfl)).2 (by decide)

end Filet
